import Mathlib

set_option maxHeartbeats 1000000
set_option linter.unusedVariables false

/-!
Shallow embedding of cloup's help-formatting core
(`src/cloup/formatting.py`, `src/cloup/_util.py`).

Python strings are modelled as `List Char`, Python `int` as `Int` (so
negative intermediate widths behave as in the source), the formatter's
output buffer (`self.buffer`, a list the code only appends to, except for
one `pop()`) as `List (List Char)`.  Fallible operations return `Except`;
errors raised while the buffer has already been mutated carry the mutated
state, matching Python's in-place mutation of `self.buffer`.
-/

/-- ASCII whitespace characters recognised by Python `str.split()`. -/
def pyIsSpace (c : Char) : Bool :=
  c = ' ' || c = '\t' || c = '\n' || c = '\r' || c = '\x0b' || c = '\x0c'

/-- Python `str.split()` with no separator: the maximal runs of
non-whitespace characters, in order.  `acc` is the current run, reversed. -/
def pySplitAux : List Char → List Char → List (List Char)
  | [], acc => if acc = [] then [] else [acc.reverse]
  | c :: rest, acc =>
    if pyIsSpace c then
      if acc = [] then pySplitAux rest [] else acc.reverse :: pySplitAux rest []
    else
      pySplitAux rest (c :: acc)

def pySplit (l : List Char) : List (List Char) := pySplitAux l []

/-- `" ".join(text.split())`, the whitespace collapsing done first by
`truncate_text` (src/cloup/formatting.py line 330). -/
def collapseWs (l : List Char) : List Char := List.intercalate [' '] (pySplit l)

/-- Python `text.rfind(" ", 0, k)`: the largest index `i < k` with
`text[i] = ' '` (`none` standing for Python's `-1`). -/
def rfindSpace (l : List Char) : Nat → Option Nat
  | 0 => none
  | k + 1 => if l.get? k = some ' ' then some k else rfindSpace l k

/-- The default placeholder `"..."` of `truncate_text`. -/
def dots : List Char := "...".toList

def nl : List Char := "\n".toList

/-- `truncate_text` (src/cloup/formatting.py lines 329-337).  `max_length`
is an `Int` because callers pass differences of widths that may be
negative; `Int.toNat` is Python's `max(·, 0)`. -/
def truncate_text (text : List Char) (max_length : Int) (placeholder : List Char) :
    List Char :=
  let t := collapseWs text
  if (t.length : Int) ≤ max_length then t
  else
    let max_cut_point : Nat := (max_length - placeholder.length + 1).toNat
    match rfindSpace t max_cut_point with
    | none => []
    | some e => t.take e ++ placeholder

/-! Properties of `rfindSpace`. -/

theorem rfindSpace_some (l : List Char) :
    ∀ k i, rfindSpace l k = some i →
      l.get? i = some ' ' ∧ i < k ∧ ∀ j, i < j → j < k → l.get? j ≠ some ' ' := by
  intro k
  induction k with
  | zero => intro i h; simp [rfindSpace] at h
  | succ k ih =>
    intro i h
    simp only [rfindSpace] at h
    by_cases hk : l.get? k = some ' '
    · rw [if_pos hk] at h
      obtain rfl : k = i := Option.some.inj h
      refine ⟨hk, Nat.lt_succ_self k, ?_⟩
      intro j hij hjk
      omega
    · rw [if_neg hk] at h
      obtain ⟨hg, hik, hmax⟩ := ih i h
      refine ⟨hg, Nat.lt_succ_of_lt hik, ?_⟩
      intro j hij hjk
      rcases Nat.lt_succ_iff_lt_or_eq.mp hjk with hjk' | rfl
      · exact hmax j hij hjk'
      · exact hk

theorem rfindSpace_none (l : List Char) :
    ∀ k, rfindSpace l k = none → ∀ j, j < k → l.get? j ≠ some ' ' := by
  intro k
  induction k with
  | zero => intro _ j hj; omega
  | succ k ih =>
    intro h j hj
    simp only [rfindSpace] at h
    by_cases hk : l.get? k = some ' '
    · rw [if_pos hk] at h
      exact absurd h (by simp)
    · rw [if_neg hk] at h
      rcases Nat.lt_succ_iff_lt_or_eq.mp hj with hj' | rfl
      · exact ih h j hj'
      · exact hk

/-- **C1.** `truncate_text` first collapses runs of whitespace; if the
collapsed text fits within `maxWidth` it is returned unchanged; otherwise
the rightmost word boundary whose (1-indexed) position is at most
`maxWidth - len(placeholder) + 1` — i.e. the rightmost index `i` with
`i + len(placeholder) ≤ maxWidth` — is found and the prefix up to it plus
the placeholder is returned; if no such boundary exists the empty string
is returned.  In particular `truncate("lorem ipsum dolor", 10)` with
placeholder `"..."` is `"lorem..."`. -/
theorem truncate_text_spec (text : List Char) (maxWidth : Int) (placeholder : List Char)
    (h0 : 0 ≤ maxWidth) :
    (((collapseWs text).length : Int) ≤ maxWidth →
      truncate_text text maxWidth placeholder = collapseWs text) ∧
    (maxWidth < ((collapseWs text).length : Int) →
      (∀ i : Nat, (collapseWs text).get? i = some ' ' →
        (i : Int) + placeholder.length ≤ maxWidth →
        (∀ j : Nat, i < j → (collapseWs text).get? j = some ' ' →
          maxWidth < (j : Int) + placeholder.length) →
        truncate_text text maxWidth placeholder =
          (collapseWs text).take i ++ placeholder) ∧
      ((∀ i : Nat, (collapseWs text).get? i = some ' ' →
          maxWidth < (i : Int) + placeholder.length) →
        truncate_text text maxWidth placeholder = [])) ∧
    truncate_text ("lorem ipsum dolor".toList) 10 ("...".toList) =
      "lorem...".toList := by
  refine ⟨?_, ?_, by decide⟩
  · intro hfits
    simp only [truncate_text]
    rw [if_pos hfits]
  refine fun hbig => ⟨?_, ?_⟩
  · intro i hsp hle hmax
    have hnot : ¬ (((collapseWs text).length : Int) ≤ maxWidth) := by omega
    simp only [truncate_text]
    rw [if_neg hnot]
    have hicut : i < (maxWidth - placeholder.length + 1).toNat := by omega
    cases hfind : rfindSpace (collapseWs text) (maxWidth - placeholder.length + 1).toNat with
    | none =>
      exact absurd hsp (rfindSpace_none _ _ hfind i hicut)
    | some e =>
      obtain ⟨hge, hecut, hemax⟩ := rfindSpace_some _ _ _ hfind
      have hee : e = i := by
        rcases Nat.lt_trichotomy e i with h | h | h
        · exact absurd hsp (hemax i h hicut)
        · exact h
        · have := hmax e h hge
          omega
      subst hee
      rfl
  · intro hnone
    have hnot : ¬ (((collapseWs text).length : Int) ≤ maxWidth) := by omega
    simp only [truncate_text]
    rw [if_neg hnot]
    cases hfind : rfindSpace (collapseWs text) (maxWidth - placeholder.length + 1).toNat with
    | none => rfl
    | some e =>
      obtain ⟨hge, hecut, _⟩ := rfindSpace_some _ _ _ hfind
      have := hnone e hge
      omega

/-- Witness for C1: the theorem applied at the spec's own example. -/
theorem truncate_text_spec_witness :
    truncate_text ("lorem ipsum dolor".toList) 10 ("...".toList) = "lorem...".toList :=
  (truncate_text_spec ("lorem ipsum dolor".toList) 10 ("...".toList) (by decide)).2.2

/-- **C2, counterexample.** `truncate("x", 1)` with the default placeholder
returns `"x"`, not `""`: the collapsed text has length 1 ≤ 1 so it is
returned unchanged. -/
theorem truncate_x_1_counterexample :
    truncate_text ("x".toList) 1 dots = "x".toList ∧
      truncate_text ("x".toList) 1 dots ≠ [] := by
  constructor
  · decide
  · decide

/-- **C2, amended.** `truncate("x", 1)` with the default 3-character
placeholder returns `"x"` unchanged, because the collapsed text already
fits within `maxWidth = 1`. -/
theorem truncate_x_1_amended : truncate_text ("x".toList) 1 dots = "x".toList := by
  decide

/-! ## The formatter data model -/

/-- A definition-list row: `(term, description)`. -/
abbrev Row := List Char × List Char

/-- The output buffer `self.buffer`: Python appends one string per
`self.write(...)`. -/
abbrev Buf := List (List Char)

/-- `HelpSection` (src/cloup/formatting.py lines 32-40). -/
structure HelpSection where
  heading : List Char
  definitions : List Row
  description : Option (List Char)
deriving DecidableEq

/-- The mutable state of a `cloup.HelpFormatter` instance: its layout
configuration plus the two fields mutated while rendering
(`current_indent` and `buffer`). -/
structure HelpFormatter where
  indent_increment : Int
  width : Int
  col1_max_width : Int
  col2_min_width : Int
  col_spacing : Int
  row_sep : List Char
  current_indent : Int
  buffer : Buf
deriving DecidableEq

deriving instance DecidableEq for Except

/-- Python `" " * n` (empty for negative `n`). -/
def spaces (n : Int) : List Char := List.replicate n.toNat ' '

/-- Python `x or d` on an optional int: `None` and `0` are falsy. -/
def orElseI (v : Option Int) (d : Int) : Int :=
  match v with
  | none => d
  | some n => if n = 0 then d else n

/-- Python truthiness of an optional int argument. -/
def truthyOptI (v : Option Int) : Bool :=
  match v with
  | none => false
  | some n => n != 0

/-- Python truthiness of an optional rows argument. -/
def truthyOptRows (v : Option (List Row)) : Bool :=
  match v with
  | none => false
  | some l => l != []

/-- `check_positive_int` (src/cloup/_util.py lines 102-109); only the
`value <= 0` branch is representable, as the model's ints are ints. -/
def check_positive_int (value : Int) (arg_name : String) : Except String Unit :=
  if value ≤ 0 then
    .error (arg_name ++ (" should be a positive integer. It is: ") ++ toString value ++ ("."))
  else .ok ()

/-- `HelpFormatter.__init__` (src/cloup/formatting.py lines 66-87).
`terminal_columns` stands for `shutil.get_terminal_size((80, 100)).columns`
and `forced_width` for `click.formatting.FORCED_WIDTH`, both environment
inputs.  `click.HelpFormatter.__init__` then sets `current_indent = 0` and
`buffer = []`. -/
def HelpFormatter.init (indent_increment : Int) (width : Option Int)
    (max_width : Option Int) (col1_max_width col2_min_width col_spacing : Int)
    (row_sep : List Char) (forced_width : Option Int) (terminal_columns : Int) :
    Except String HelpFormatter :=
  match check_positive_int col1_max_width ("col1_max_width") with
  | .error e => .error e
  | .ok _ =>
    match check_positive_int col_spacing ("col_spacing") with
    | .error e => .error e
    | .ok _ =>
      let mw := orElseI max_width 80
      let w := orElseI width (orElseI forced_width (min mw terminal_columns))
      .ok { indent_increment := indent_increment, width := w,
            col1_max_width := col1_max_width, col2_min_width := col2_min_width,
            col_spacing := col_spacing, row_sep := row_sep,
            current_indent := 0, buffer := [] }

/-- `self.write(s)`: append to the buffer (click.HelpFormatter.write). -/
def HelpFormatter.write (st : HelpFormatter) (s : List Char) : HelpFormatter :=
  { st with buffer := st.buffer ++ [s] }

/-- `click.HelpFormatter.write_paragraph`: a newline, but only if the
buffer is non-empty. -/
def HelpFormatter.write_paragraph (st : HelpFormatter) : HelpFormatter :=
  if st.buffer = [] then st else st.write nl

/-- `click.HelpFormatter.write_heading`. -/
def HelpFormatter.write_heading (st : HelpFormatter) (heading : List Char) :
    HelpFormatter :=
  st.write (spaces st.current_indent ++ heading ++ (":\n").toList)

/-- `click.HelpFormatter.indent`. -/
def HelpFormatter.indent (st : HelpFormatter) : HelpFormatter :=
  { st with current_indent := st.current_indent + st.indent_increment }

/-- `click.HelpFormatter.dedent`. -/
def HelpFormatter.dedent (st : HelpFormatter) : HelpFormatter :=
  { st with current_indent := st.current_indent - st.indent_increment }

/-- `compute_col_width` (src/cloup/formatting.py lines 140-143): the
maximum of the candidate lengths not exceeding `max_width`, 0 by default. -/
def compute_col_width (strings : List (List Char)) (max_width : Int) : Int :=
  ((strings.map (fun s => (s.length : Int))).filter (fun l => l ≤ max_width)).foldl max 0

/-- `determine_col_widths` (src/cloup/formatting.py lines 145-188).
Python's `col1_width or ...`/`x or y` truthiness (where `0` and `None` are
falsy) is modelled by `truthyOptI`/`orElseI`. -/
def determine_col_widths (st : HelpFormatter) (col1_width : Option Int)
    (rows : Option (List Row)) (col1_max_width : Option Int)
    (col_spacing : Option Int) : Except String (Int × Int) :=
  if truthyOptI col1_width || truthyOptRows rows then
    let available_width : Int := st.width - st.current_indent
    let actual_col1_max_width : Int :=
      min (orElseI col1_max_width st.col1_max_width) available_width
    let base : Int :=
      match col1_width with
      | some n =>
        if n = 0 then
          compute_col_width ((rows.getD []).map Prod.fst) actual_col1_max_width
        else n
      | none => compute_col_width ((rows.getD []).map Prod.fst) actual_col1_max_width
    let c1 : Int := min base actual_col1_max_width
    let cs : Int := orElseI col_spacing st.col_spacing
    .ok (c1, available_width - c1 - cs)
  else
    .error ("at least one of col1_width and col1_strings must be provided")

/-! ## Facts about `compute_col_width` -/

theorem foldl_max_le (m : Int) :
    ∀ (l : List Int) (i : Int), i ≤ m → (∀ a ∈ l, a ≤ m) → l.foldl max i ≤ m := by
  intro l
  induction l with
  | nil => intro i hi _; simpa using hi
  | cons a l ih =>
    intro i hi h
    simp only [List.foldl_cons]
    exact ih (max i a) (max_le hi (h a (by simp))) (fun b hb => h b (by simp [hb]))

theorem le_foldl_max : ∀ (l : List Int) (i : Int), i ≤ l.foldl max i := by
  intro l
  induction l with
  | nil => intro i; simp
  | cons a l ih =>
    intro i
    simp only [List.foldl_cons]
    exact le_trans (le_max_left i a) (ih (max i a))

theorem foldl_max_init : ∀ (l : List Int) (i j : Int),
    l.foldl max (max i j) = max i (l.foldl max j) := by
  intro l
  induction l with
  | nil => intro i j; simp
  | cons a l ih =>
    intro i j
    simp only [List.foldl_cons]
    rw [max_assoc, ih]

theorem compute_col_width_le (strings : List (List Char)) (m : Int) (hm : 0 ≤ m) :
    compute_col_width strings m ≤ m := by
  apply foldl_max_le m _ 0 hm
  intro a ha
  exact of_decide_eq_true (List.mem_filter.mp ha).2

theorem compute_col_width_nonneg (strings : List (List Char)) (m : Int) :
    0 ≤ compute_col_width strings m :=
  le_foldl_max _ 0

theorem compute_col_width_append (a b : List (List Char)) (m : Int) :
    compute_col_width (a ++ b) m = max (compute_col_width a m) (compute_col_width b m) := by
  unfold compute_col_width
  rw [List.map_append, List.filter_append, List.foldl_append]
  have h0 : max (((a.map (fun s => (s.length : Int))).filter (fun l => l ≤ m)).foldl max 0) 0
      = ((a.map (fun s => (s.length : Int))).filter (fun l => l ≤ m)).foldl max 0 :=
    max_eq_left (le_foldl_max _ 0)
  rw [← h0, foldl_max_init, h0]

/-! ## Concrete fixtures used by counterexamples and witnesses -/

/-- A formatter with the default configuration (`col1_max_width = 30`,
`col2_min_width = 20`, `col_spacing = 2`, `indent_increment = 2`,
`row_sep = ""`) and content width `w`, fresh (`current_indent = 0`, empty
buffer) — exactly what `HelpFormatter.init` produces for width `w`. -/
def fmtW (w : Int) : HelpFormatter :=
  { indent_increment := 2, width := w, col1_max_width := 30, col2_min_width := 20,
    col_spacing := 2, row_sep := [], current_indent := 0, buffer := [] }

def rowsV : List Row := [("--verbose".toList, "Enable".toList)]

def secOptions : HelpSection :=
  { heading := "Options".toList, definitions := rowsV, description := none }

/-- A single row whose term is 15 characters long. -/
def rows15 : List Row := [("aaaaaaaaaaaaaaa".toList, "d".toList)]

/-! ## C7: when does the width resolver raise? -/

/-- **C7, counterexample.** An explicit column-1 width of `0` *is*
supplied, yet the resolver raises the argument error, because Python's
`not (col1_width or rows)` treats `0` as absent. -/
theorem determine_col_widths_zero_counterexample :
    determine_col_widths (fmtW 80) (some 0) none none none =
      .error ("at least one of col1_width and col1_strings must be provided") := by
  decide

/-- **C7, amended.** The resolver fails with the argument error exactly
when the explicit column-1 width is `None` or `0` *and* the rows argument
is `None` or the empty sequence (Python truthiness); a nonzero explicit
width or a non-empty rows sequence avoids the error. -/
theorem determine_col_widths_error_iff (st : HelpFormatter) (c1w : Option Int)
    (rows : Option (List Row)) (cm cs : Option Int) :
    determine_col_widths st c1w rows cm cs =
        .error ("at least one of col1_width and col1_strings must be provided") ↔
      truthyOptI c1w = false ∧ truthyOptRows rows = false := by
  unfold determine_col_widths
  by_cases h : (truthyOptI c1w || truthyOptRows rows) = true
  · rw [if_pos h]
    constructor
    · intro hc; exact absurd hc (by simp)
    · rintro ⟨h1, h2⟩
      rw [h1, h2] at h
      simp at h
  · rw [if_neg h]
    simp only [Bool.or_eq_true, not_or, Bool.not_eq_true] at h
    simp [h.1, h.2]

/-! ## C4: width resolution without an explicit column-1 width -/

/-- **C4, counterexample.** With content width 10 and the default
`col1_max_width = 30`, a 15-character term is *excluded* even though
15 ≤ 30: the effective cap is `min(col1_max, available_width) = 10`, so
the resolved widths are `(0, 8)`, not the claim's `(15, -7)`. -/
theorem determine_col_widths_cap_counterexample :
    determine_col_widths (fmtW 10) none (some rows15) none none = .ok (0, 8) ∧
      compute_col_width (rows15.map Prod.fst) ((fmtW 10).col1_max_width) = 15 ∧
      ((0 : Int), (8 : Int)) ≠
        ((15 : Int), (fmtW 10).width - (fmtW 10).current_indent - 15 - (fmtW 10).col_spacing) := by
  refine ⟨by decide, by decide, by decide⟩

/-- **C4, amended.** Without an explicit column-1 width, `col1_width` is
the maximum length of the candidate first-column strings whose length does
not exceed the *effective* cap `min(col1_max, available_width)` (0 if no
candidate qualifies), and `col2_width = available_width − col1_width −
spacing` with no flooring, where `available_width = width −
current_indent`. -/
theorem determine_col_widths_no_explicit (st : HelpFormatter) (rows : List Row)
    (cm cs : Option Int) (hrows : rows ≠ [])
    (hcap : 0 ≤ min (orElseI cm st.col1_max_width) (st.width - st.current_indent)) :
    determine_col_widths st none (some rows) cm cs =
      .ok (compute_col_width (rows.map Prod.fst)
             (min (orElseI cm st.col1_max_width) (st.width - st.current_indent)),
           st.width - st.current_indent
             - compute_col_width (rows.map Prod.fst)
                 (min (orElseI cm st.col1_max_width) (st.width - st.current_indent))
             - orElseI cs st.col_spacing) := by
  have ht : truthyOptRows (some rows) = true := by
    simp [truthyOptRows, hrows]
  unfold determine_col_widths
  rw [if_pos (by simp [truthyOptI, ht])]
  simp only [Option.getD]
  rw [min_eq_left (compute_col_width_le _ _ hcap)]

/-- Witness for C4's amended theorem at a concrete input. -/
theorem determine_col_widths_no_explicit_witness :
    determine_col_widths (fmtW 50) none (some rowsV) none none = .ok (9, 39) := by
  rw [determine_col_widths_no_explicit (fmtW 50) rowsV none none (by decide) (by decide)]
  decide

/-! ## Word wrapping (external dependency, modelled from the spec) -/

/-- Greedy line filling: pack words into lines of at most `cap` characters
(words joined by single spaces); a word that does not fit starts a new
line.  `cur` is the line being filled. -/
def greedyFill (cap : Int) : List Char → List (List Char) → List (List Char)
  | cur, [] => [cur]
  | cur, w :: rest =>
    if ((cur.length + 1 + w.length : Nat) : Int) ≤ cap then
      greedyFill cap (cur ++ ' ' :: w) rest
    else
      cur :: greedyFill cap w rest

/-- Split a text, given as its list of lines, into paragraphs (runs of
lines separated by blank lines), each paragraph given as its list of
words.  `cur` accumulates the current paragraph's words. -/
def paragraphsAux : List (List Char) → List (List Char) → List (List (List Char))
  | [], cur => if cur = [] then [] else [cur]
  | line :: rest, cur =>
    let ws := pySplit line
    if ws = [] then
      if cur = [] then paragraphsAux rest [] else cur :: paragraphsAux rest []
    else
      paragraphsAux rest (cur ++ ws)

/-- Render one paragraph (given as words) as indent-prefixed greedy-filled
lines joined by newlines. -/
def fillParagraph (cap : Int) (ind : List Char) : List (List Char) → List Char
  | [] => []
  | w :: rest => List.intercalate nl ((greedyFill cap w rest).map (fun ln => ind ++ ln))

/-- Modelled from the spec: `click.formatting.wrap_text` is an external
dependency of src/cloup/formatting.py (imported at line 8), not part of
src/.  Per the spec (§4.3) it word-wraps text to the given width
"preserving paragraph breaks (blank-line-separated blocks do not merge)",
each line prefixed by the indent, which is counted against the width.  At
every call site in src/ the two indents coincide, so the model applies
`subsequent_indent` uniformly. -/
def wrap_text (text : List Char) (width : Int)
    (initial_indent subsequent_indent : List Char) (preserve_paragraphs : Bool) :
    List Char :=
  let cap : Int := width - subsequent_indent.length
  let pars :=
    if preserve_paragraphs then paragraphsAux (List.splitOn '\n' text) []
    else [pySplit text]
  List.intercalate (nl ++ nl)
    ((pars.filter (fun p => p ≠ [])).map (fillParagraph cap subsequent_indent))

/-- Python `str.splitlines()` restricted to `'\n'` separators (the only
ones `wrap_text` produces): the empty string has no lines, and a trailing
newline adds no final empty line. -/
def pySplitlines (l : List Char) : List (List Char) :=
  if l = [] then []
  else
    let parts := List.splitOn '\n' l
    if parts.getLast? = some [] then parts.dropLast else parts

/-- `click.HelpFormatter.write_text`: wrapped text at the current
indentation, then a newline. -/
def HelpFormatter.write_text (st : HelpFormatter) (text : List Char) : HelpFormatter :=
  let ind := spaces st.current_indent
  (st.write (wrap_text text st.width ind ind true)).write nl

/-! ## The definition-list renderers -/

/-- The error message of Python's indexing into an empty list, raised by
`lines[0]` at src/cloup/formatting.py line 285 when the wrapped
description is empty (a whitespace-only description in wrap mode). -/
def indexEmptyMsg : String := "list index out of range"

/-- The loop body of `write_tabular_dl` (src/cloup/formatting.py lines
267-294), for one row.  `cps` is `col1_plus_spacing_width`; `cur_ind` and
`col2_ind` are the pre-computed indentation strings.  `lines[0]` raises
`IndexError` when the wrapped description has no lines, so the step is
fallible; the error carries the buffer as already mutated. -/
def tabularRowStep (wrap_overflow : Bool) (col1_width cps col2_width : Int)
    (cur_ind col2_ind : List Char) (acc : HelpFormatter) (r : Row) :
    Except (String × HelpFormatter) HelpFormatter :=
  let acc := acc.write cur_ind
  let acc := acc.write r.1
  if r.2 = [] then
    .ok ((acc.write nl).write acc.row_sep)
  else
    let acc :=
      if (r.1.length : Int) ≤ col1_width then acc.write (spaces (cps - r.1.length))
      else (acc.write nl).write col2_ind
    if wrap_overflow then
      match pySplitlines (wrap_text r.2 col2_width [] [] true) with
      | [] => .error (indexEmptyMsg, acc)
      | l0 :: rest =>
        let acc := acc.write (l0 ++ nl)
        let acc := rest.foldl (fun a ln => a.write (col2_ind ++ ln ++ nl)) acc
        .ok (if acc.row_sep ≠ [] then acc.write acc.row_sep else acc)
    else
      let acc := (acc.write (truncate_text r.2 col2_width dots)).write nl
      .ok (if acc.row_sep ≠ [] then acc.write acc.row_sep else acc)

/-- The `for first, second in iter_rows(...)` loop of `write_tabular_dl`,
stopping at the first raised error. -/
def tabularLoop (wrap_overflow : Bool) (col1_width cps col2_width : Int)
    (cur_ind col2_ind : List Char) :
    HelpFormatter → List Row → Except (String × HelpFormatter) HelpFormatter
  | acc, [] => .ok acc
  | acc, r :: rest =>
    match tabularRowStep wrap_overflow col1_width cps col2_width cur_ind col2_ind acc r with
    | .ok acc2 => tabularLoop wrap_overflow col1_width cps col2_width cur_ind col2_ind acc2 rest
    | .error e => .error e

/-- `write_tabular_dl` (src/cloup/formatting.py lines 255-294). -/
def write_tabular_dl (st : HelpFormatter) (rows : List Row)
    (col1_width col_spacing col2_width : Int) (strat : String) :
    Except (String × HelpFormatter) HelpFormatter :=
  let wrap_overflow : Bool := strat == "wrap"
  let cps := col1_width + col_spacing
  let cur_ind := spaces st.current_indent
  let col2_ind := spaces (st.current_indent + max st.indent_increment cps)
  tabularLoop wrap_overflow col1_width cps col2_width cur_ind col2_ind st rows

/-- The loop body of `write_linear_dl` (src/cloup/formatting.py lines
305-315), for one row.  `descr_max_width`, `indentation` and
`descr_indentation` are pre-computed before the loop, from the state at
entry. -/
def linearRowStep (wrap_overflow : Bool) (descr_max_width : Int)
    (indentation descr_indentation : List Char) (acc : HelpFormatter) (r : Row) :
    HelpFormatter :=
  let acc := acc.write (indentation ++ r.1 ++ nl)
  let acc :=
    if r.2 = [] then acc
    else if wrap_overflow then
      let a2 := HelpFormatter.write_text
        { acc with current_indent := acc.current_indent + 4 } r.2
      { a2 with current_indent := a2.current_indent - 4 }
    else
      acc.write (descr_indentation ++ truncate_text r.2 descr_max_width dots ++ nl)
  acc.write nl

/-- The error message of Python's `list.pop()` on an empty list. -/
def popEmptyMsg : String := "pop from empty list"

/-- `write_linear_dl` (src/cloup/formatting.py lines 296-316), including
the final unconditional `self.buffer.pop()`, which raises `IndexError` on
an empty buffer. -/
def write_linear_dl (st : HelpFormatter) (rows : List Row) (strat : String) :
    Except (String × HelpFormatter) HelpFormatter :=
  let descr_max_width := st.width - st.current_indent - st.indent_increment
  let indentation := spaces st.current_indent
  let descr_indentation := spaces (st.current_indent + 4)
  let wrap_overflow : Bool := strat == "wrap"
  let st1 := rows.foldl
    (linearRowStep wrap_overflow descr_max_width indentation descr_indentation) st
  if st1.buffer = [] then .error (popEmptyMsg, st1)
  else .ok { st1 with buffer := st1.buffer.dropLast }

/-- `write_dl` (src/cloup/formatting.py lines 190-253).  Note that the
`col2_min_width` *parameter* is accepted but never read by the source —
the branch uses `self.col2_min_width`. -/
def write_dl (st : HelpFormatter) (rows : List Row) (col_max : Option Int)
    (col_spacing : Option Int) (col1_width : Option Int) (col2_min_width : Option Int)
    (col2_overflow_strategy : String) : Except (String × HelpFormatter) HelpFormatter :=
  if col2_overflow_strategy ≠ ("wrap") ∧ col2_overflow_strategy ≠ ("truncate") then
    .error (("invalid col2_overflow_strategy: ") ++ col2_overflow_strategy, st)
  else
    let cs := orElseI col_spacing st.col_spacing
    match determine_col_widths st col1_width (some rows) col_max (some cs) with
    | .error m => .error (m, st)
    | .ok (c1, c2) =>
      if c2 < st.col2_min_width then write_linear_dl st rows col2_overflow_strategy
      else write_tabular_dl st rows c1 cs c2 col2_overflow_strategy

/-- `write_section` (src/cloup/formatting.py lines 132-138), inlining
click's `section` context manager (`write_paragraph`; `write_heading`;
`indent`; body; finally `dedent` — the dedent also runs on the error
path while the buffer keeps everything already written). -/
def write_section (st : HelpFormatter) (s : HelpSection) (col1_width : Option Int)
    (strat : String) : Except (String × HelpFormatter) HelpFormatter :=
  let st1 := ((st.write_paragraph).write_heading s.heading).indent
  let st2 :=
    match s.description with
    | none => st1
    | some d =>
      if d = [] then st1
      else
        let a := st1.write_text d
        if a.row_sep ≠ [] then a.write a.row_sep else a
  match write_dl st2 s.definitions none none col1_width none strat with
  | .ok r => .ok r.dedent
  | .error (m, r) => .error (m, r.dedent)

/-- The `for s in sections: self.write_section(s, ...)` loops of
`write_many_sections` and `write_aligned_sections`. -/
def sectionsLoop (col1_width : Option Int) (strat : String) :
    HelpFormatter → List HelpSection → Except (String × HelpFormatter) HelpFormatter
  | st, [] => .ok st
  | st, s :: rest =>
    match write_section st s col1_width strat with
    | .ok st2 => sectionsLoop col1_width strat st2 rest
    | .error e => .error e

/-- `write_aligned_sections` (src/cloup/formatting.py lines 117-130). -/
def write_aligned_sections (st : HelpFormatter) (sections : List HelpSection)
    (strat : String) : Except (String × HelpFormatter) HelpFormatter :=
  let col1_strings := (sections.map (fun s => s.definitions.map Prod.fst)).flatten
  let col1_width := compute_col_width col1_strings st.col1_max_width
  sectionsLoop (some col1_width) strat st sections

/-- `write_many_sections` (src/cloup/formatting.py lines 106-115). -/
def write_many_sections (st : HelpFormatter) (sections : List HelpSection)
    (aligned : Bool) (strat : String) : Except (String × HelpFormatter) HelpFormatter :=
  if aligned then write_aligned_sections st sections strat
  else sectionsLoop none strat st sections

/-! ## Pure characterisation of `write_linear_dl` -/

/-- The buffer entries `write_linear_dl` appends for one row, before the
final `pop`: the term line, the (optional) description rendering, and the
blank-line row separator.  `w` is the content width, `ci` the indentation
at entry, `dmw` the pre-computed `descr_max_width`. -/
def linRowRender (w ci dmw : Int) (wb : Bool) (r : Row) : Buf :=
  [spaces ci ++ r.1 ++ nl] ++
  (if r.2 = [] then []
   else if wb then
     [wrap_text r.2 w (spaces (ci + 4)) (spaces (ci + 4)) true, nl]
   else
     [spaces (ci + 4) ++ truncate_text r.2 dmw dots ++ nl]) ++
  [nl]

theorem linearRowStep_eq (wb : Bool) (dmw w ci : Int) (acc : HelpFormatter) (r : Row)
    (hw : acc.width = w) (hci : acc.current_indent = ci) :
    linearRowStep wb dmw (spaces ci) (spaces (ci + 4)) acc r =
      { acc with buffer := acc.buffer ++ linRowRender w ci dmw wb r } := by
  subst hw hci
  cases acc with
  | mk ii w c1m c2m cs rs ci buf =>
    by_cases h2 : r.2 = []
    · simp [linearRowStep, linRowRender, HelpFormatter.write, h2]
    · by_cases hwb : wb
      · simp [linearRowStep, linRowRender, HelpFormatter.write,
          HelpFormatter.write_text, h2, hwb]
      · simp [linearRowStep, linRowRender, HelpFormatter.write, h2, hwb]

theorem linear_fold (wb : Bool) (dmw w ci : Int) :
    ∀ (rows : List Row) (acc : HelpFormatter), acc.width = w → acc.current_indent = ci →
      rows.foldl (linearRowStep wb dmw (spaces ci) (spaces (ci + 4))) acc =
        { acc with buffer := acc.buffer ++ (rows.map (linRowRender w ci dmw wb)).flatten } := by
  intro rows
  induction rows with
  | nil => intro acc hw hci; simp
  | cons r rows ih =>
    intro acc hw hci
    simp only [List.foldl_cons]
    rw [linearRowStep_eq wb dmw w ci acc r hw hci]
    rw [ih _ (by simp [hw]) (by simp [hci])]
    simp

theorem write_linear_dl_eq (st : HelpFormatter) (rows : List Row) (strat : String) :
    write_linear_dl st rows strat =
      if st.buffer ++ (rows.map (linRowRender st.width st.current_indent
            (st.width - st.current_indent - st.indent_increment) (strat == "wrap"))).flatten
          = [] then
        .error (popEmptyMsg,
          { st with buffer := st.buffer ++ (rows.map (linRowRender st.width st.current_indent
              (st.width - st.current_indent - st.indent_increment) (strat == "wrap"))).flatten })
      else
        .ok { st with buffer := (st.buffer ++ (rows.map (linRowRender st.width st.current_indent
            (st.width - st.current_indent - st.indent_increment) (strat == "wrap"))).flatten
          ).dropLast } := by
  simp only [write_linear_dl]
  rw [linear_fold (strat == "wrap") (st.width - st.current_indent - st.indent_increment)
    st.width st.current_indent rows st rfl rfl]

theorem linRowRender_ne_nil (w ci dmw : Int) (wb : Bool) (r : Row) :
    linRowRender w ci dmw wb r ≠ [] := by
  simp [linRowRender]

theorem linRowRender_getLast (w ci dmw : Int) (wb : Bool) (r : Row) :
    (linRowRender w ci dmw wb r).getLast? = some nl := by
  unfold linRowRender
  exact List.getLast?_concat _

theorem linRows_flatten_getLast (w ci dmw : Int) (wb : Bool) :
    ∀ (rows : List Row), rows ≠ [] →
      ((rows.map (linRowRender w ci dmw wb)).flatten).getLast? = some nl := by
  intro rows
  induction rows with
  | nil => intro h; exact absurd rfl h
  | cons r rows ih =>
    intro _
    cases rows with
    | nil => simpa using linRowRender_getLast w ci dmw wb r
    | cons r2 rows2 =>
      have h2 := ih (by simp)
      have hne : (((r2 :: rows2).map (linRowRender w ci dmw wb)).flatten) ≠ [] := by
        intro hc
        rw [hc] at h2
        simp at h2
      rw [List.map_cons, List.flatten_cons, List.getLast?_append, h2]
      rfl

theorem linRows_flatten_ne_nil (w ci dmw : Int) (wb : Bool) (rows : List Row)
    (h : rows ≠ []) : ((rows.map (linRowRender w ci dmw wb)).flatten) ≠ [] := by
  intro hc
  have := linRows_flatten_getLast w ci dmw wb rows h
  rw [hc] at this
  simp at this

/-- **C10.** `write_linear_dl` unconditionally pops the last buffer
element after its loop: for non-empty rows this removes exactly the
trailing blank-line separator it just wrote (the rendered entries end with
`"\n"`); for an empty row list it removes output written *before* the
call; and with an empty row list and an empty buffer it fails (Python
`IndexError: pop from empty list`). -/
theorem write_linear_dl_pop (st : HelpFormatter) (rows : List Row) (strat : String) :
    (rows ≠ [] →
      ((rows.map (linRowRender st.width st.current_indent
          (st.width - st.current_indent - st.indent_increment) (strat == "wrap"))).flatten
        ).getLast? = some nl ∧
      write_linear_dl st rows strat =
        .ok { st with buffer := st.buffer ++
          ((rows.map (linRowRender st.width st.current_indent
              (st.width - st.current_indent - st.indent_increment) (strat == "wrap"))).flatten
            ).dropLast }) ∧
    (rows = [] → st.buffer ≠ [] →
      write_linear_dl st rows strat = .ok { st with buffer := st.buffer.dropLast }) ∧
    (rows = [] → st.buffer = [] →
      write_linear_dl st rows strat = .error (popEmptyMsg, st)) := by
  refine ⟨?_, ?_, ?_⟩
  · intro hrows
    have hne := linRows_flatten_ne_nil st.width st.current_indent
      (st.width - st.current_indent - st.indent_increment) (strat == "wrap") rows hrows
    refine ⟨linRows_flatten_getLast _ _ _ _ rows hrows, ?_⟩
    rw [write_linear_dl_eq]
    rw [if_neg (by simp [hne])]
    rw [List.dropLast_append_of_ne_nil _ hne]
  · intro hrows hbuf
    subst hrows
    rw [write_linear_dl_eq]
    simp only [List.map_nil, List.flatten_nil, List.append_nil]
    rw [if_neg hbuf]
  · intro hrows hbuf
    subst hrows
    rw [write_linear_dl_eq]
    simp only [List.map_nil, List.flatten_nil, List.append_nil]
    rw [if_pos hbuf]

/-- Witness for C10: the three cases at concrete inputs. -/
theorem write_linear_dl_pop_witness :
    write_linear_dl (fmtW 30) rowsV ("truncate") =
      .ok { fmtW 30 with buffer := ["--verbose\n".toList, "    Enable\n".toList] } ∧
    write_linear_dl { fmtW 30 with buffer := ["x".toList] } [] ("truncate") =
      .ok { fmtW 30 with buffer := [] } ∧
    write_linear_dl (fmtW 30) [] ("truncate") = .error (popEmptyMsg, fmtW 30) := by
  refine ⟨?_, ?_, ?_⟩
  · have h := ((write_linear_dl_pop (fmtW 30) rowsV ("truncate")).1 (by decide)).2
    rw [h]
    decide
  · have h := (write_linear_dl_pop { fmtW 30 with buffer := ["x".toList] } []
      ("truncate")).2.1 rfl (by decide)
    rw [h]
    decide
  · exact (write_linear_dl_pop (fmtW 30) [] ("truncate")).2.2 rfl rfl

/-! ## C8: linear-mode description widths -/

/-- **C8, amended.**  In linear mode, a non-empty description is rendered
with the indentation increased by exactly 4 columns (and restored after),
but the two overflow strategies use *different* widths: `wrap` wraps
against `width − (current_indent + 4)` (the wrapped text is produced at
indentation `current_indent + 4` within the full content width), while
`truncate` truncates against `width − current_indent − indent_increment`
(the `descr_max_width` pre-computed before the loop), not
`width − current_indent − 4`. -/
theorem write_linear_dl_descr_widths (st : HelpFormatter) (t d : List Char) (hd : d ≠ []) :
    write_linear_dl st [(t, d)] ("wrap") =
      .ok { st with buffer := st.buffer ++
        [spaces st.current_indent ++ t ++ nl,
         wrap_text d st.width (spaces (st.current_indent + 4))
           (spaces (st.current_indent + 4)) true,
         nl] } ∧
    write_linear_dl st [(t, d)] ("truncate") =
      .ok { st with buffer := st.buffer ++
        [spaces st.current_indent ++ t ++ nl,
         spaces (st.current_indent + 4) ++
           truncate_text d (st.width - st.current_indent - st.indent_increment) dots ++ nl] } := by
  obtain ⟨ii, w, c1m, c2m, cs, rs, ci, buf⟩ := st
  constructor
  · rw [write_linear_dl_eq]
    simp [linRowRender, hd, List.dropLast_append_of_ne_nil]
  · rw [write_linear_dl_eq]
    simp [linRowRender, hd, List.dropLast_append_of_ne_nil]

/-- Witness for C8's amended theorem at a concrete input. -/
theorem write_linear_dl_descr_widths_witness :
    write_linear_dl (fmtW 30) [("t".toList, "Enable".toList)] ("truncate") =
      .ok { fmtW 30 with buffer :=
        ["t\n".toList, "    Enable\n".toList] } := by
  have h := (write_linear_dl_descr_widths (fmtW 30) ("t".toList) ("Enable".toList)
    (by decide)).2
  rw [h]
  decide

/-- A 29-character description with word boundaries at 4, 9, 14, 19, 24. -/
def longD : List Char := "aaaa bbbb cccc dddd eeee ffff".toList

/-- **C8, counterexample.** With the default `indent_increment = 2`,
content width 30 and indentation 0, the truncate branch of linear mode
truncates against `30 − 0 − 2 = 28` (yielding `"aaaa bbbb cccc dddd
eeee..."`), not against `30 − 0 − 4 = 26` as the claim's
`targetWidth − indentation` (after the 4-column step) would give
(`"aaaa bbbb cccc dddd..."`). -/
theorem linear_truncate_width_counterexample :
    write_linear_dl (fmtW 30) [("t".toList, longD)] ("truncate") =
      .ok { fmtW 30 with buffer :=
        ["t\n".toList, "    aaaa bbbb cccc dddd eeee...\n".toList] } ∧
    "    aaaa bbbb cccc dddd eeee...\n".toList ≠
      spaces ((fmtW 30).current_indent + 4) ++
        truncate_text longD ((fmtW 30).width - (fmtW 30).current_indent - 4) dots ++ nl := by
  constructor
  · decide
  · decide

/-! ## C3: tabular-vs-linear mode selection in `write_dl` -/

/-- **C3.** `write_dl` picks linear mode exactly when the resolved
`col2_width` is strictly below the *configured* `self.col2_min_width`,
and tabular mode otherwise; concretely, with `col2_min_width = 20`, a
resolved `col2_width = 19` (width 30) yields linear output with the
4-space description indent, and `col2_width = 20` (width 31) yields
tabular output. -/
theorem write_dl_mode_selection :
    (∀ (st : HelpFormatter) (rows : List Row) (cm cs c1w c2mw : Option Int)
        (strat : String) (a b : Int),
      (strat = "wrap" ∨ strat = "truncate") →
      determine_col_widths st c1w (some rows) cm (some (orElseI cs st.col_spacing)) =
        .ok (a, b) →
      (b < st.col2_min_width →
        write_dl st rows cm cs c1w c2mw strat = write_linear_dl st rows strat) ∧
      (st.col2_min_width ≤ b →
        write_dl st rows cm cs c1w c2mw strat =
          write_tabular_dl st rows a (orElseI cs st.col_spacing) b strat)) ∧
    write_dl (fmtW 30) rowsV none none none none ("truncate") =
      .ok { fmtW 30 with buffer := ["--verbose\n".toList, "    Enable\n".toList] } ∧
    write_dl (fmtW 31) rowsV none none none none ("truncate") =
      .ok { fmtW 31 with buffer :=
        ["".toList, "--verbose".toList, "  ".toList, "Enable".toList, "\n".toList] } := by
  refine ⟨?_, by decide, by decide⟩
  intro st rows cm cs c1w c2mw strat a b hstrat hdet
  have hvalid : ¬ (strat ≠ ("wrap") ∧ strat ≠ ("truncate")) := by
    rcases hstrat with h | h <;> simp [h]
  simp only [write_dl]
  rw [if_neg hvalid, hdet]
  constructor
  · intro hlt
    show (if b < st.col2_min_width then write_linear_dl st rows strat
      else write_tabular_dl st rows a (orElseI cs st.col_spacing) b strat) =
        write_linear_dl st rows strat
    rw [if_pos hlt]
  · intro hge
    show (if b < st.col2_min_width then write_linear_dl st rows strat
      else write_tabular_dl st rows a (orElseI cs st.col_spacing) b strat) =
        write_tabular_dl st rows a (orElseI cs st.col_spacing) b strat
    rw [if_neg (not_lt.mpr hge)]

/-- Witness for C3 at the two concrete configurations. -/
theorem write_dl_mode_selection_witness :
    write_dl (fmtW 30) rowsV none none none none ("truncate") =
      write_linear_dl (fmtW 30) rowsV ("truncate") ∧
    write_dl (fmtW 31) rowsV none none none none ("truncate") =
      write_tabular_dl (fmtW 31) rowsV 9 2 20 ("truncate") := by
  refine ⟨?_, ?_⟩
  · exact (write_dl_mode_selection.1 (fmtW 30) rowsV none none none none
      ("truncate") 9 19 (Or.inr rfl) (by decide)).1 (by decide)
  · exact (write_dl_mode_selection.1 (fmtW 31) rowsV none none none none
      ("truncate") 9 20 (Or.inr rfl) (by decide)).2 (by decide)

/-! ## C5: shared column-1 width across aligned sections -/

theorem HelpFormatter.indent_dedent (st : HelpFormatter) : st.indent.dedent = st := by
  cases st
  simp [HelpFormatter.indent, HelpFormatter.dedent]

def secHelp : HelpSection :=
  { heading := "Other".toList,
    definitions := [("-h, --help".toList, "Show this message and exit.".toList)],
    description := none }

/-- **C5.** `write_aligned_sections` renders every section with one shared
column-1 width: for two sections it is exactly the larger of the two
independently computed widths (each the result of `compute_col_width` on
that section's own terms), and it never exceeds `col1_max_width`. -/
theorem write_aligned_sections_shared_width (st : HelpFormatter) (s1 s2 : HelpSection)
    (strat : String) (h : 0 ≤ st.col1_max_width) :
    write_aligned_sections st [s1, s2] strat =
      sectionsLoop
        (some (max (compute_col_width (s1.definitions.map Prod.fst) st.col1_max_width)
          (compute_col_width (s2.definitions.map Prod.fst) st.col1_max_width)))
        strat st [s1, s2] ∧
    max (compute_col_width (s1.definitions.map Prod.fst) st.col1_max_width)
      (compute_col_width (s2.definitions.map Prod.fst) st.col1_max_width)
      ≤ st.col1_max_width := by
  constructor
  · simp only [write_aligned_sections]
    rw [show ([s1, s2].map (fun s => s.definitions.map Prod.fst)).flatten
        = s1.definitions.map Prod.fst ++ s2.definitions.map Prod.fst by simp]
    rw [compute_col_width_append]
  · exact max_le (compute_col_width_le _ _ h) (compute_col_width_le _ _ h)

/-- Witness for C5: two concrete sections with differing maximum term
lengths (9 and 10) both get rendered with the shared width 10. -/
theorem write_aligned_sections_shared_width_witness :
    write_aligned_sections (fmtW 50) [secOptions, secHelp] ("truncate") =
      sectionsLoop (some 10) ("truncate") (fmtW 50) [secOptions, secHelp] := by
  have h := (write_aligned_sections_shared_width (fmtW 50) secOptions secHelp
    ("truncate") (by decide)).1
  have hw : max (compute_col_width (secOptions.definitions.map Prod.fst)
      ((fmtW 50).col1_max_width))
      (compute_col_width (secHelp.definitions.map Prod.fst) ((fmtW 50).col1_max_width))
      = (10 : Int) := by decide
  rw [h, hw]

/-! ## C6: configuration errors -/

theorem write_dl_invalid_strategy (st : HelpFormatter) (rows : List Row)
    (cm cs c1w c2mw : Option Int) (strat : String)
    (hw1 : strat ≠ ("wrap")) (ht1 : strat ≠ ("truncate")) :
    write_dl st rows cm cs c1w c2mw strat =
      .error (("invalid col2_overflow_strategy: ") ++ strat, st) := by
  simp only [write_dl]
  rw [if_pos ⟨hw1, ht1⟩]

theorem write_section_invalid_strategy (st : HelpFormatter) (s : HelpSection)
    (c1w : Option Int) (strat : String)
    (hw1 : strat ≠ ("wrap")) (ht1 : strat ≠ ("truncate")) (hd : s.description = none) :
    write_section st s c1w strat =
      .error (("invalid col2_overflow_strategy: ") ++ strat,
        (st.write_paragraph).write_heading s.heading) := by
  simp only [write_section, hd]
  rw [write_dl_invalid_strategy _ _ _ _ _ _ _ hw1 ht1]
  show Except.error (("invalid col2_overflow_strategy: ") ++ strat,
      (((st.write_paragraph).write_heading s.heading).indent).dedent) = _
  rw [HelpFormatter.indent_dedent]

/-- **C6, amended.**  Non-positive `col1_max_width` or `col_spacing` are
rejected eagerly at construction with a descriptive error, before any
output exists; but (i) `width`, `max_width` and `col2_min_width` are *not*
validated (construction succeeds for any value of `col2_min_width`), and
(ii) an invalid overflow-strategy token makes the render call fail with a
descriptive error only after the section heading has already been appended
to the buffer, so the buffer is *not* unchanged on error — it retains the
heading as partial output. -/
theorem config_error_behavior :
    (∀ (ii : Int) (w mw : Option Int) (c1m c2m cs : Int) (rs : List Char)
        (fw : Option Int) (tc : Int), c1m ≤ 0 →
      HelpFormatter.init ii w mw c1m c2m cs rs fw tc =
        .error (("col1_max_width should be a positive integer. It is: ")
          ++ toString c1m ++ ("."))) ∧
    (∀ (ii : Int) (w mw : Option Int) (c1m c2m cs : Int) (rs : List Char)
        (fw : Option Int) (tc : Int), 0 < c1m → cs ≤ 0 →
      HelpFormatter.init ii w mw c1m c2m cs rs fw tc =
        .error (("col_spacing should be a positive integer. It is: ")
          ++ toString cs ++ ("."))) ∧
    (∀ (ii : Int) (w mw : Option Int) (c1m c2m cs : Int) (rs : List Char)
        (fw : Option Int) (tc : Int), 0 < c1m → 0 < cs →
      (HelpFormatter.init ii w mw c1m c2m cs rs fw tc).isOk = true) ∧
    (∀ (st : HelpFormatter) (s : HelpSection) (rest : List HelpSection) (strat : String),
      strat ≠ ("wrap") → strat ≠ ("truncate") → s.description = none →
      write_many_sections st (s :: rest) true strat =
        .error (("invalid col2_overflow_strategy: ") ++ strat,
          (st.write_paragraph).write_heading s.heading) ∧
      st.buffer.length < ((st.write_paragraph).write_heading s.heading).buffer.length) := by
  refine ⟨?_, ?_, ?_, ?_⟩
  · intro ii w mw c1m c2m cs rs fw tc hc
    simp only [HelpFormatter.init, check_positive_int]
    rw [if_pos hc]
    rfl
  · intro ii w mw c1m c2m cs rs fw tc h1 hc
    simp only [HelpFormatter.init, check_positive_int]
    rw [if_neg (not_le.mpr h1), if_pos hc]
    rfl
  · intro ii w mw c1m c2m cs rs fw tc h1 h2
    simp only [HelpFormatter.init, check_positive_int]
    rw [if_neg (not_le.mpr h1), if_neg (not_le.mpr h2)]
    rfl
  · intro st s rest strat hw1 ht1 hd
    constructor
    · simp only [write_many_sections, if_pos, write_aligned_sections, sectionsLoop]
      rw [write_section_invalid_strategy _ _ _ _ hw1 ht1 hd]
    · by_cases hb : st.buffer = []
      · simp [HelpFormatter.write_paragraph, HelpFormatter.write_heading,
          HelpFormatter.write, hb]
      · simp [HelpFormatter.write_paragraph, HelpFormatter.write_heading,
          HelpFormatter.write, hb]

/-- Witness for C6 at concrete inputs: the two rejected constructions, an
accepted construction with `col2_min_width = 0`, and the invalid-strategy
error that still leaves the heading in the buffer. -/
theorem config_error_behavior_witness :
    HelpFormatter.init 2 none (some 80) 0 20 2 [] none 80 =
      .error (("col1_max_width should be a positive integer. It is: 0.")) ∧
    HelpFormatter.init 2 none (some 80) 30 20 0 [] none 80 =
      .error (("col_spacing should be a positive integer. It is: 0.")) ∧
    (HelpFormatter.init 2 none (some 80) 30 0 2 [] none 80).isOk = true ∧
    write_many_sections (fmtW 80) [secOptions] true ("x") =
      .error (("invalid col2_overflow_strategy: x"),
        ((fmtW 80).write_paragraph).write_heading secOptions.heading) := by
  refine ⟨?_, ?_, ?_, ?_⟩
  · rw [config_error_behavior.1 2 none (some 80) 0 20 2 [] none 80 (by decide)]
    decide
  · rw [config_error_behavior.2.1 2 none (some 80) 30 20 0 [] none 80 (by decide) (by decide)]
    decide
  · exact config_error_behavior.2.2.1 2 none (some 80) 30 0 2 [] none 80
      (by decide) (by decide)
  · rw [(config_error_behavior.2.2.2 (fmtW 80) secOptions [] ("x")
      (by decide) (by decide) rfl).1]
    decide

/-- **C6, counterexample.** Rendering a section with the invalid strategy
token `"bogus"` fails with the descriptive error, but the buffer is *not*
unchanged: the section heading `"Options:\n"` has already been appended
when the error is raised. -/
theorem config_error_partial_output_counterexample :
    write_many_sections (fmtW 80) [secOptions] true ("bogus") =
      .error (("invalid col2_overflow_strategy: bogus"),
        { fmtW 80 with buffer := ["Options:\n".toList] }) ∧
    ({ fmtW 80 with buffer := ["Options:\n".toList] } : HelpFormatter).buffer ≠
      (fmtW 80).buffer := by
  constructor
  · decide
  · decide


/-! ## Pure characterisation of `write_tabular_dl` -/

theorem write_foldl_map (f : List Char → List Char) :
    ∀ (ls : List (List Char)) (acc : HelpFormatter),
      ls.foldl (fun a ln => a.write (f ln)) acc =
        { acc with buffer := acc.buffer ++ ls.map f } := by
  intro ls
  induction ls with
  | nil => intro acc; simp
  | cons l ls ih =>
    intro acc
    simp only [List.foldl_cons]
    rw [ih]
    simp [HelpFormatter.write]

/-- The buffer entries `write_tabular_dl` appends for one row that it
renders without raising: the indentation and the term, then — if the
description is empty — a newline and the row separator; otherwise the
padding (or newline plus column-2 indentation when the term overflows
column 1), the description rendered per the overflow strategy, and the
optional row separator. -/
def tabRowRender (rs : List Char) (wb : Bool) (col1_width cps col2_width : Int)
    (cur_ind col2_ind : List Char) (r : Row) : Buf :=
  [cur_ind, r.1] ++
  (if r.2 = [] then [nl, rs]
   else
    (if (r.1.length : Int) ≤ col1_width then [spaces (cps - r.1.length)]
     else [nl, col2_ind]) ++
    (if wb then
      (let lines := pySplitlines (wrap_text r.2 col2_width [] [] true)
       ((lines.headD []) ++ nl) :: (lines.drop 1).map (fun ln => col2_ind ++ ln ++ nl))
     else [truncate_text r.2 col2_width dots, nl]) ++
    (if rs ≠ [] then [rs] else []))

/-- A row the tabular renderer processes without raising: the description
is empty, or the strategy is not wrap, or the wrapped description has at
least one line (otherwise `lines[0]` raises `IndexError` in the source). -/
def tabRowSafe (wb : Bool) (c2 : Int) (r : Row) : Bool :=
  r.2 == [] || !wb || pySplitlines (wrap_text r.2 c2 [] [] true) != []

theorem tabularRowStep_safe (wb : Bool) (c1 cps c2 : Int) (cind ci2 : List Char)
    (acc : HelpFormatter) (r : Row) (hsafe : tabRowSafe wb c2 r = true) :
    tabularRowStep wb c1 cps c2 cind ci2 acc r =
      .ok { acc with buffer := acc.buffer ++ tabRowRender acc.row_sep wb c1 cps c2 cind ci2 r } := by
  obtain ⟨ii, w, c1m, c2m, csp, rs, ci, buf⟩ := acc
  by_cases h2 : r.2 = []
  · simp [tabularRowStep, tabRowRender, HelpFormatter.write, h2]
  · by_cases hwb : wb
    · have hlines : pySplitlines (wrap_text r.2 c2 [] [] true) ≠ [] := by
        simp [tabRowSafe, h2, hwb] at hsafe
        exact hsafe
      cases hl : pySplitlines (wrap_text r.2 c2 [] [] true) with
      | nil => exact absurd hl hlines
      | cons l0 lrest =>
        by_cases hlen : (r.1.length : Int) ≤ c1
        · simp only [tabularRowStep, h2, hwb, hlen, if_true, if_false, ite_true,
            ite_false, hl]
          rw [write_foldl_map]
          by_cases hrs : rs ≠ [] <;>
            simp [tabRowRender, HelpFormatter.write, h2, hwb, hlen, hrs, hl]
        · simp only [tabularRowStep, h2, hwb, hlen, if_true, if_false, ite_true,
            ite_false, hl]
          rw [write_foldl_map]
          by_cases hrs : rs ≠ [] <;>
            simp [tabRowRender, HelpFormatter.write, h2, hwb, hlen, hrs, hl]
    · by_cases hlen : (r.1.length : Int) ≤ c1
      · by_cases hrs : rs ≠ [] <;>
          simp [tabularRowStep, tabRowRender, HelpFormatter.write, h2, hwb, hlen, hrs]
      · by_cases hrs : rs ≠ [] <;>
          simp [tabularRowStep, tabRowRender, HelpFormatter.write, h2, hwb, hlen, hrs]

theorem tabularLoop_ok (wb : Bool) (c1 cps c2 : Int) (cind ci2 : List Char) :
    ∀ (rows : List Row) (acc : HelpFormatter),
      rows.all (tabRowSafe wb c2) = true →
      tabularLoop wb c1 cps c2 cind ci2 acc rows =
        .ok { acc with buffer := acc.buffer ++
          (rows.map (tabRowRender acc.row_sep wb c1 cps c2 cind ci2)).flatten } := by
  intro rows
  induction rows with
  | nil => intro acc _; simp [tabularLoop]
  | cons r rest ih =>
    intro acc hall
    rw [List.all_cons, Bool.and_eq_true] at hall
    simp only [tabularLoop]
    rw [tabularRowStep_safe _ _ _ _ _ _ _ _ hall.1]
    show tabularLoop wb c1 cps c2 cind ci2
      { acc with buffer := acc.buffer ++ tabRowRender acc.row_sep wb c1 cps c2 cind ci2 r }
      rest = _
    rw [ih _ hall.2]
    simp

theorem write_tabular_dl_ok (st : HelpFormatter) (rows : List Row)
    (c1 cs c2 : Int) (strat : String)
    (hall : rows.all (tabRowSafe (strat == "wrap") c2) = true) :
    write_tabular_dl st rows c1 cs c2 strat =
      .ok { st with buffer := st.buffer ++
        (rows.map (tabRowRender st.row_sep (strat == "wrap") c1 (c1 + cs) c2
          (spaces st.current_indent)
          (spaces (st.current_indent + max st.indent_increment (c1 + cs))))).flatten } := by
  simp only [write_tabular_dl]
  exact tabularLoop_ok _ _ _ _ _ _ rows st hall

/-! ## Pure characterisation of `write_dl`, `write_section` and the
section loop, on the inputs the source renders without raising -/

/-- The whole buffer `write_dl` leaves behind on success: the per-row
tabular renderings appended in row order, or the per-row linear renderings
appended and then the last buffer element popped (for an empty row list
the pop reaches into the pre-existing buffer, exactly as in the source). -/
def dlBuffer (st : HelpFormatter) (rows : List Row) (c1w : Option Int)
    (strat : String) : Buf :=
  match determine_col_widths st c1w (some rows) none (some st.col_spacing) with
  | .error _ => st.buffer
  | .ok (c1, c2) =>
    if c2 < st.col2_min_width then
      (st.buffer ++ (rows.map (linRowRender st.width st.current_indent
        (st.width - st.current_indent - st.indent_increment) (strat == "wrap"))).flatten
        ).dropLast
    else
      st.buffer ++ (rows.map (tabRowRender st.row_sep (strat == "wrap") c1
        (c1 + st.col_spacing) c2 (spaces st.current_indent)
        (spaces (st.current_indent + max st.indent_increment (c1 + st.col_spacing))))).flatten

/-- The exact condition under which the source's `write_dl` (with a valid
strategy, called from `write_section` with the buffer non-empty) completes
without raising: the width resolver succeeds (a truthy explicit width or a
non-empty row list), and — when tabular mode is chosen in wrap mode — no
row has a non-empty description that wraps to nothing (the `lines[0]`
`IndexError` of src/cloup/formatting.py line 285). -/
def dlSafe (st : HelpFormatter) (rows : List Row) (c1w : Option Int)
    (strat : String) : Bool :=
  match determine_col_widths st c1w (some rows) none (some st.col_spacing) with
  | .error _ => false
  | .ok (_, c2) =>
    if c2 < st.col2_min_width then true
    else rows.all (tabRowSafe (strat == "wrap") c2)

theorem write_dl_ok (st : HelpFormatter) (rows : List Row) (c1w : Option Int)
    (strat : String) (hstrat : strat = "wrap" ∨ strat = "truncate")
    (hsafe : dlSafe st rows c1w strat = true)
    (hne : st.buffer = [] → rows ≠ []) :
    write_dl st rows none none c1w none strat =
      .ok { st with buffer := dlBuffer st rows c1w strat } := by
  have hvalid : ¬ (strat ≠ ("wrap") ∧ strat ≠ ("truncate")) := by
    rcases hstrat with h | h <;> simp [h]
  cases hdet : determine_col_widths st c1w (some rows) none (some st.col_spacing) with
  | error m =>
    simp [dlSafe, hdet] at hsafe
  | ok p =>
    obtain ⟨c1, c2⟩ := p
    simp only [dlSafe, hdet] at hsafe
    simp only [write_dl, orElseI]
    rw [if_neg hvalid]
    simp only [hdet]
    simp only [dlBuffer, hdet]
    by_cases hc : c2 < st.col2_min_width
    · simp only [if_pos hc]
      rw [write_linear_dl_eq]
      have hflat : ¬ (st.buffer ++ (rows.map (linRowRender st.width st.current_indent
          (st.width - st.current_indent - st.indent_increment) (strat == "wrap"))).flatten
          = []) := by
        intro hcon
        rw [List.append_eq_nil] at hcon
        exact linRows_flatten_ne_nil _ _ _ _ rows (hne hcon.1) hcon.2
      rw [if_neg hflat]
    · simp only [if_neg hc] at hsafe
      simp only [if_neg hc]
      rw [write_tabular_dl_ok _ _ _ _ _ _ hsafe]

theorem paragraph_heading_indent (st : HelpFormatter) (h : List Char) :
    ((st.write_paragraph).write_heading h).indent =
      { st with current_indent := st.current_indent + st.indent_increment,
                buffer := st.buffer ++ ((if st.buffer = [] then [] else [nl]) ++
                  [spaces st.current_indent ++ h ++ (":\n").toList]) } := by
  by_cases hb : st.buffer = []
  · simp [HelpFormatter.write_paragraph, HelpFormatter.write_heading,
      HelpFormatter.write, HelpFormatter.indent, hb]
  · simp [HelpFormatter.write_paragraph, HelpFormatter.write_heading,
      HelpFormatter.write, HelpFormatter.indent, hb]

/-- The buffer entries `write_section` appends before the definition list:
the optional blank-line paragraph separator, the heading line, and the
optional description (wrapped at the indented position, followed by the
row separator if configured). -/
def headChunk (st : HelpFormatter) (s : HelpSection) (needPar : Bool) : Buf :=
  (if needPar then [nl] else []) ++
  [spaces st.current_indent ++ s.heading ++ (":\n").toList] ++
  (match s.description with
   | none => []
   | some d =>
     if d = [] then []
     else
       [wrap_text d st.width (spaces (st.current_indent + st.indent_increment))
          (spaces (st.current_indent + st.indent_increment)) true, nl] ++
       (if st.row_sep ≠ [] then [st.row_sep] else []))

theorem headChunk_ne_nil (st : HelpFormatter) (s : HelpSection) (np : Bool) :
    headChunk st s np ≠ [] := by
  simp [headChunk]

/-- The whole buffer a successful `write_section` leaves behind. -/
def sectionBuffer (st : HelpFormatter) (s : HelpSection) (c1w : Option Int)
    (strat : String) : Buf :=
  dlBuffer { st.indent with buffer := st.buffer ++ headChunk st s (!st.buffer.isEmpty) }
    s.definitions c1w strat

/-- The buffer entries a successful `write_section` appends: the heading
part followed by the definition list, with linear mode's final pop staying
inside this section's contribution (the heading part is never empty). -/
def sectionChunk (st : HelpFormatter) (s : HelpSection) (c1w : Option Int)
    (strat : String) (needPar : Bool) : Buf :=
  dlBuffer { st.indent with buffer := headChunk st s needPar } s.definitions c1w strat

theorem dlBuffer_append (ii w c1m c2m csp : Int) (rs : List Char) (ci : Int)
    (pre hbuf : Buf) (rows : List Row) (c1w : Option Int) (strat : String)
    (hhead : hbuf ≠ []) :
    dlBuffer ⟨ii, w, c1m, c2m, csp, rs, ci, pre ++ hbuf⟩ rows c1w strat =
      pre ++ dlBuffer ⟨ii, w, c1m, c2m, csp, rs, ci, hbuf⟩ rows c1w strat := by
  have hdd : determine_col_widths ⟨ii, w, c1m, c2m, csp, rs, ci, pre ++ hbuf⟩ c1w
        (some rows) none (some csp) =
      determine_col_widths ⟨ii, w, c1m, c2m, csp, rs, ci, hbuf⟩ c1w
        (some rows) none (some csp) := rfl
  simp only [dlBuffer]
  rw [hdd]
  cases hdet : determine_col_widths ⟨ii, w, c1m, c2m, csp, rs, ci, hbuf⟩ c1w
      (some rows) none (some csp) with
  | error m => simp [hdet]
  | ok p =>
    obtain ⟨c1, c2⟩ := p
    simp only [hdet]
    by_cases hc : c2 < c2m
    · have hbf : hbuf ++ (rows.map (linRowRender w ci (w - ci - ii)
          (strat == "wrap"))).flatten ≠ [] := by
        intro hcon
        exact hhead (List.append_eq_nil.mp hcon).1
      simp [hc, List.append_assoc, List.dropLast_append_of_ne_nil _ hbf]
    · simp [hc, List.append_assoc]

theorem sectionBuffer_eq_append (st : HelpFormatter) (s : HelpSection)
    (c1w : Option Int) (strat : String) :
    sectionBuffer st s c1w strat =
      st.buffer ++ sectionChunk st s c1w strat (!st.buffer.isEmpty) := by
  obtain ⟨ii, w, c1m, c2m, csp, rs, ci, buf⟩ := st
  simp only [sectionBuffer, sectionChunk, HelpFormatter.indent]
  exact dlBuffer_append ii w c1m c2m csp rs (ci + ii) buf _ _ c1w strat
    (headChunk_ne_nil _ _ _)

theorem write_section_ok (st : HelpFormatter) (s : HelpSection) (c1w : Option Int)
    (strat : String) (hstrat : strat = "wrap" ∨ strat = "truncate")
    (hsafe : dlSafe st.indent s.definitions c1w strat = true) :
    write_section st s c1w strat =
      .ok { st with buffer := sectionBuffer st s c1w strat } := by
  obtain ⟨ii, w, c1m, c2m, csp, rs, ci, buf⟩ := st
  obtain ⟨hd, defs, desc⟩ := s
  simp only [write_section]
  rw [paragraph_heading_indent]
  rcases desc with _ | d
  · rw [write_dl_ok _ defs c1w strat hstrat ?hs1 ?hn1]
    case hs1 => exact hsafe
    case hn1 => intro hcon; simp at hcon
    cases buf <;>
      simp [sectionBuffer, headChunk, HelpFormatter.indent, HelpFormatter.dedent,
        List.isEmpty]
  · by_cases hde : d = []
    · subst hde
      rw [write_dl_ok _ defs c1w strat hstrat ?hs2 ?hn2]
      case hs2 => exact hsafe
      case hn2 => intro hcon; simp at hcon
      cases buf <;>
        simp [sectionBuffer, headChunk, HelpFormatter.indent, HelpFormatter.dedent,
          List.isEmpty]
    · simp only [HelpFormatter.write_text, HelpFormatter.write, hde, ite_false, if_neg]
      by_cases hrs : rs ≠ []
      · rw [if_pos hrs, write_dl_ok _ defs c1w strat hstrat ?hs3 ?hn3]
        case hs3 => exact hsafe
        case hn3 => intro hcon; simp at hcon
        cases buf <;>
          simp [sectionBuffer, headChunk, HelpFormatter.indent, HelpFormatter.dedent,
            List.isEmpty, hde, hrs]
      · rw [if_neg hrs, write_dl_ok _ defs c1w strat hstrat ?hs4 ?hn4]
        case hs4 => exact hsafe
        case hn4 => intro hcon; simp at hcon
        cases buf <;>
          simp [sectionBuffer, headChunk, HelpFormatter.indent, HelpFormatter.dedent,
            List.isEmpty, hde, hrs]

/-- The concatenation, in input order, of the per-section buffer
contributions; a section gets a leading paragraph separator exactly when
something has been written before it (the first section: when the buffer
already had content; later ones: also when any earlier chunk was
non-empty). -/
def sectionsChunks (st : HelpFormatter) (c1w : Option Int) (strat : String) :
    Bool → List HelpSection → Buf
  | _, [] => []
  | needPar, s :: rest =>
    sectionChunk st s c1w strat needPar ++
      sectionsChunks st c1w strat
        (needPar || !(sectionChunk st s c1w strat needPar).isEmpty) rest

theorem sectionsChunks_buffer (st : HelpFormatter) (b : Buf) (c1w : Option Int)
    (strat : String) :
    ∀ (secs : List HelpSection) (np : Bool),
      sectionsChunks { st with buffer := b } c1w strat np secs =
        sectionsChunks st c1w strat np secs := by
  intro secs
  induction secs with
  | nil => intro np; rfl
  | cons s rest ih =>
    intro np
    simp only [sectionsChunks]
    have hc : sectionChunk { st with buffer := b } s c1w strat np =
        sectionChunk st s c1w strat np := rfl
    rw [hc, ih]

theorem not_isEmpty_append (a b : Buf) :
    (!(a ++ b).isEmpty) = (!a.isEmpty || !b.isEmpty) := by
  cases a <;> cases b <;> simp [List.isEmpty]

theorem sectionsLoop_ok (c1w : Option Int) (strat : String)
    (hstrat : strat = "wrap" ∨ strat = "truncate") :
    ∀ (sections : List HelpSection) (st : HelpFormatter),
      (∀ s ∈ sections, dlSafe st.indent s.definitions c1w strat = true) →
      sectionsLoop c1w strat st sections =
        .ok { st with buffer := st.buffer ++
          sectionsChunks st c1w strat (!st.buffer.isEmpty) sections } := by
  intro sections
  induction sections with
  | nil => intro st _; simp [sectionsLoop, sectionsChunks]
  | cons s rest ih =>
    intro st hsafe
    simp only [sectionsLoop]
    rw [write_section_ok st s c1w strat hstrat (hsafe s (by simp))]
    show sectionsLoop c1w strat { st with buffer := sectionBuffer st s c1w strat }
      rest = _
    rw [sectionBuffer_eq_append]
    rw [ih _ ?hrest]
    case hrest =>
      intro s2 hs2
      exact hsafe s2 (by simp [hs2])
    rw [sectionsChunks_buffer, not_isEmpty_append]
    simp [sectionsChunks, List.append_assoc]

/-- The column-1 width option `write_many_sections` passes down: the
shared width over all sections' terms when aligned, nothing otherwise. -/
def alignedWidthOpt (st : HelpFormatter) (sections : List HelpSection)
    (aligned : Bool) : Option Int :=
  if aligned then
    some (compute_col_width
      ((sections.map (fun s => s.definitions.map Prod.fst)).flatten) st.col1_max_width)
  else none

/-- **C9.** On every input the source renders to completion — `dlSafe`
holds per section, i.e. the width resolver succeeds and no wrap-mode
tabular row raises the `lines[0]` `IndexError`; inputs outside this set
raise mid-render rather than produce output — the rendered output is,
structurally, the input-ordered concatenation of per-section
contributions (`sectionsChunks` recurses over the sections in order),
each of whose definition-list part is the input-ordered concatenation of
per-row renderings (`dlBuffer` flattens the per-row
`tabRowRender`/`linRowRender` in row order); no sorting, reordering or
merging occurs.  Sections with empty definition lists are covered (under
an aligned truthy shared width they render just their heading).  Moreover
each rendered row exhibits its term verbatim: entry 1 of a tabular row
rendering is the term, and the head of a linear row rendering is
indentation ++ term ++ newline. -/
theorem write_many_sections_order (st : HelpFormatter) (sections : List HelpSection)
    (aligned : Bool) (strat : String)
    (hstrat : strat = "wrap" ∨ strat = "truncate")
    (hsafe : ∀ s ∈ sections,
      dlSafe st.indent s.definitions (alignedWidthOpt st sections aligned) strat = true) :
    write_many_sections st sections aligned strat =
      .ok { st with buffer := st.buffer ++ sectionsChunks st (alignedWidthOpt st sections aligned) strat (!st.buffer.isEmpty) sections } ∧
    (∀ (rs : List Char) (wb : Bool) (c1 cps c2 : Int) (cind ci2 : List Char) (r : Row),
      (tabRowRender rs wb c1 cps c2 cind ci2 r).get? 1 = some r.1) ∧
    (∀ (w ci dmw : Int) (wb : Bool) (r : Row),
      (linRowRender w ci dmw wb r).head? = some (spaces ci ++ r.1 ++ nl)) := by
  refine ⟨?_, ?_, ?_⟩
  · cases aligned
    · simp only [alignedWidthOpt, Bool.false_eq_true, if_false, ite_false] at hsafe ⊢
      simp only [write_many_sections, Bool.false_eq_true, if_false, ite_false]
      rw [sectionsLoop_ok none strat hstrat sections st hsafe]
    · simp only [alignedWidthOpt, if_true, ite_true] at hsafe ⊢
      simp only [write_many_sections, if_true, ite_true, write_aligned_sections]
      rw [sectionsLoop_ok _ strat hstrat sections st hsafe]
  · intro rs wb c1 cps c2 cind ci2 r
    simp [tabRowRender]
  · intro w ci dmw wb r
    simp [linRowRender]

/-- Witness for C9 at a concrete input. -/
theorem write_many_sections_order_witness :
    write_many_sections (fmtW 50) [secOptions] true ("truncate") =
      .ok { fmtW 50 with buffer := sectionsChunks (fmtW 50) (some 9) ("truncate") false [secOptions] } := by
  have h := (write_many_sections_order (fmtW 50) [secOptions] true ("truncate")
    (Or.inr rfl) (by decide)).1
  rw [h]
  decide

/-- Fidelity of the error path the C9 hypotheses exclude: a whitespace-only
description in wrap-mode tabular rendering makes the render raise Python's
`IndexError: list index out of range` mid-row, leaving the partial output
in the buffer — the model no longer renders such inputs successfully. -/
theorem wrap_blank_description_raises :
    write_many_sections (fmtW 50)
      [{ heading := "Options".toList,
         definitions := [("-a".toList, "   ".toList)], description := none }]
      true ("wrap") =
      .error (indexEmptyMsg,
        { fmtW 50 with buffer :=
            ["Options:\n".toList, "  ".toList, "-a".toList, "  ".toList] }) := by
  decide
